import Mathlib

/-!
Formal model of the Arturito tag-driven dispatch agent.

The development embeds, as executable Lean functions, the parts of the
repository that carry the control-flow logic:

* `task_processor.py` / `agent.py` — the dispatch loop
  (`process_tagged_tasks`, `_find_matching_tool`, `_execute_tool`,
  `_update_task_after_processing`);
* `tool_loader.py` / `Agent._load_tools` — registry construction
  (`load_tools`, `_instantiate_and_register_tool`);
* `services/gemini_service.py` — `generate_content` with its bounded
  retry loop;
* `services/todoist_service.py` — `get_tasks_by_filter`;
* `tools/base_tool.py` and `tools/search_tool.py` — constructor and the
  disabled-tool branch of `execute`.

External collaborators (the Todoist API, the network) are passed in as
explicit parameters: a fetch is an `Except` value, a tool body is a
function returning `Except` (a raised Python exception is the `error`
case), and the observable writes of a pass are collected in a list of
`Effect`s.  Python's `sorted` on lists of strings is embedded as an
insertion sort under code-point lexicographic order.
-/

namespace Arturito

/-- A Todoist task snapshot as consumed by the dispatch loop
(`task.id`, `task.content`, `task.description`, `task.labels`; the
labels field may be `None` in Python, hence the `Option`). -/
structure TaskItem where
  id : String
  content : String
  description : String
  labels : Option (List String)

/-- The `task_details` dictionary built by the dispatch loop and passed
to `tool.execute`. -/
structure TaskDetails where
  id : String
  content : String
  description : String
  labels : List String
deriving DecidableEq

/-- A loaded tool instance: its `execute` method either returns a result
comment or raises (the `error` case carries the exception text). -/
structure Tool where
  execute : TaskDetails → Except String String

/-- The tool registry: a Python dict from trigger tag to tool instance,
modelled as an insertion-ordered association list with unique keys. -/
abbrev Registry := List (String × Tool)

/-- Dict lookup: `registry[tag]` / `tag in registry`. -/
def registry_lookup : Registry → String → Option Tool
  | [], _ => none
  | (k, v) :: rest, tag => if k = tag then some v else registry_lookup rest tag

/-- An observable write performed against the Todoist service during a
pass: `add_comment` or `update_task_labels` (full replacement). -/
inductive Effect where
  | addComment (taskId text : String)
  | updateLabels (taskId : String) (labels : List String)
deriving DecidableEq

/-- Code-point lexicographic order on character lists: the order Python
uses when `sorted` compares strings. -/
def lex_le_chars : List Char → List Char → Bool
  | [], _ => true
  | _ :: _, [] => false
  | c :: cs, d :: ds =>
    if c.toNat < d.toNat then true
    else if c.toNat = d.toNat then lex_le_chars cs ds
    else false

/-- String comparison used by `sorted` on label lists. -/
def str_le (a b : String) : Bool := lex_le_chars a.data b.data

/-- Insertion step of the sort. -/
def ins_sorted (x : String) : List String → List String
  | [] => [x]
  | y :: ys => if str_le x y then x :: y :: ys else y :: ins_sorted x ys

/-- Python's `sorted` on a list of strings (an insertion sort; only the
sorted result matters, not the algorithm). -/
def sortLabels : List String → List String
  | [] => []
  | x :: xs => ins_sorted x (sortLabels xs)

/-- The agent tag (`Agent.AGENT_TAG` and the `TaskProcessor` default). -/
def AGENT_TAG : String := "@arturito"

/-- The done marker appended after a successful execution. -/
def DONE_TAG : String := "@arturito_hecho"

/-- The diagnostic comment built in the `except` branch of
`_execute_tool`: an f-string embedding the action tag and the exception
text. -/
def error_comment (actionTag err : String) : String :=
  "Error: Fallo al ejecutar la acción '" ++ actionTag ++ "'.\nDetalles: " ++ err

/-- `TaskProcessor._find_matching_tool`: scan the labels in order and
return the first label that is not the agent tag and is a registry key,
together with its tool. -/
def find_matching_tool (agentTag : String) (reg : Registry) :
    List String → Option (String × Tool)
  | [] => none
  | l :: ls =>
    if l ≠ agentTag then
      match registry_lookup reg l with
      | some t => some (l, t)
      | none => find_matching_tool agentTag reg ls
    else find_matching_tool agentTag reg ls

/-- `TaskProcessor._execute_tool`: run the tool inside `try`, returning
the comment and a success flag; an exception is caught and turned into
the diagnostic comment with `success = False`. -/
def execute_tool (tool : Tool) (actionTag : String) (details : TaskDetails) :
    String × Bool :=
  match tool.execute details with
  | .ok r => (r, true)
  | .error e => (error_comment actionTag e, false)

/-- The new label list computed in `_update_task_after_processing`:
the comprehension keeping labels different from the agent tag and from
`action_tag` (an `Optional[str]`, so `None` removes nothing), plus the
done marker appended when execution succeeded. -/
def new_labels_after (agentTag : String) (actionTag : Option String)
    (originalLabels : List String) (success : Bool) : List String :=
  let base := originalLabels.filter fun l =>
    decide (l ≠ agentTag) &&
      (match actionTag with
       | some a => decide (l ≠ a)
       | none => true)
  if success then base ++ [DONE_TAG] else base

/-- `TaskProcessor._update_task_after_processing`: post the comment when
it is non-empty, then replace the labels only when the sorted new list
differs from the sorted original list. -/
def update_task_after_processing (agentTag taskId : String)
    (originalLabels : List String) (actionTag : Option String)
    (success : Bool) (comment : String) : List Effect :=
  let commentEffects :=
    if comment ≠ "" then [Effect.addComment taskId comment] else []
  let newLabels := new_labels_after agentTag actionTag originalLabels success
  let updateEffects :=
    if sortLabels newLabels ≠ sortLabels originalLabels then
      [Effect.updateLabels taskId newLabels]
    else []
  commentEffects ++ updateEffects

/-- One iteration of the dispatch loop body for a single task: match a
tool, skip (`continue`) when none matches, otherwise execute it and
reconcile. -/
def process_task (agentTag : String) (reg : Registry) (task : TaskItem) :
    List Effect :=
  let labels := task.labels.getD []
  match find_matching_tool agentTag reg labels with
  | none => []
  | some (actionTag, tool) =>
    let details : TaskDetails :=
      { id := task.id, content := task.content,
        description := task.description, labels := labels }
    let (comment, success) := execute_tool tool actionTag details
    update_task_after_processing agentTag task.id labels (some actionTag)
      success comment

/-- `TaskProcessor.process_tagged_tasks`: a failed fetch (`except`
branch) or an empty fetch ends the pass with no effect; otherwise every
fetched task is processed in order. -/
def process_tagged_tasks (agentTag : String) (reg : Registry)
    (fetched : Except String (List TaskItem)) : List Effect :=
  match fetched with
  | .error _ => []
  | .ok tasks =>
    if tasks.isEmpty then []
    else tasks.flatMap (process_task agentTag reg)

/-- The new label list as the specification words it: the original list
with every occurrence of the agent tag and of the action tag removed,
and the done marker appended at the end when execution succeeded.
Stated from the spec, to be compared with `new_labels_after`. -/
def spec_new_labels (originalLabels : List String) (actionTag : String)
    (success : Bool) : List String :=
  originalLabels.filter (fun l => decide (¬(l = AGENT_TAG ∨ l = actionTag))) ++
    (if success then [DONE_TAG] else [])

theorem sortLabels_perm (l : List String) : (sortLabels l).Perm l := by
  induction l with
  | nil => simp [sortLabels]
  | cons x xs ih =>
    have hins : ∀ (y : String) (m : List String), (ins_sorted y m).Perm (y :: m) := by
      intro y m
      induction m with
      | nil => simp [ins_sorted]
      | cons z zs ihz =>
        simp only [ins_sorted]
        by_cases h : str_le y z
        · simp [h]
        · simp only [h, if_false]
          exact (ihz.cons z).trans (List.Perm.swap y z zs)
    exact (hins x (sortLabels xs)).trans (ih.cons x)

theorem sortLabels_eq_perm {l₁ l₂ : List String}
    (h : sortLabels l₁ = sortLabels l₂) : l₁.Perm l₂ :=
  (sortLabels_perm l₁).symm.trans (h ▸ sortLabels_perm l₂)

/-- C1: for a processed item with original labels `L` and matched action
tag `a`, the computed new label list is `L` with every occurrence of the
agent tag `@arturito` and of `a` removed, with `@arturito_hecho`
appended at the end exactly when the handler execution succeeded; on
failure no marker is added, so the done marker is absent whenever it was
not already present. -/
theorem c1_new_labels (L : List String) (a : String) :
    new_labels_after AGENT_TAG (some a) L true = spec_new_labels L a true ∧
    new_labels_after AGENT_TAG (some a) L false = spec_new_labels L a false ∧
    (DONE_TAG ∉ L →
      DONE_TAG ∉ new_labels_after AGENT_TAG (some a) L false) := by
  have hfilter :
      (L.filter fun l => decide (l ≠ AGENT_TAG) && decide (l ≠ a)) =
        L.filter (fun l => decide (¬(l = AGENT_TAG ∨ l = a))) := by
    refine List.filter_congr ?_
    intro x _
    by_cases h1 : x = AGENT_TAG <;> by_cases h2 : x = a <;> simp [h1, h2]
  refine ⟨?_, ?_, ?_⟩
  · simp [new_labels_after, spec_new_labels, hfilter]
  · simp [new_labels_after, spec_new_labels, hfilter]
  · intro hnot hmem
    simp only [new_labels_after, Bool.false_eq_true, if_false] at hmem
    exact hnot (List.mem_filter.mp hmem).1

/-- Witness for C1: concrete instantiation showing the done marker is
absent after a failed execution. -/
theorem c1_new_labels_witness :
    DONE_TAG ∉
      new_labels_after AGENT_TAG (some "buscar")
        ["@arturito", "buscar", "casa"] false :=
  (c1_new_labels ["@arturito", "buscar", "casa"] "buscar").2.2 (by decide)

/-- C7: a failed fetch aborts the whole pass with no effect at all, and
a fetch returning zero items ends the pass immediately as a no-op. -/
theorem c7_fetch_failure_aborts_pass :
    (∀ (agentTag : String) (reg : Registry) (e : String),
      process_tagged_tasks agentTag reg (Except.error e) = []) ∧
    (∀ (agentTag : String) (reg : Registry),
      process_tagged_tasks agentTag reg (Except.ok []) = []) :=
  ⟨fun _ _ _ => rfl, fun _ _ => rfl⟩

/-- Witness for C7: a concrete failed fetch produces no effects. -/
theorem c7_fetch_failure_witness :
    process_tagged_tasks AGENT_TAG [] (Except.error "HTTP 500") = [] :=
  c7_fetch_failure_aborts_pass.1 AGENT_TAG [] "HTTP 500"

/-- C2: the selected handler is the first label in order that is not the
agent tag and is a registry key (earlier non-matching labels are labels
that equal the agent tag or are not registry keys); when no label
matches, the matcher returns nothing and the task is skipped with no
comment and no label change. -/
theorem c2_first_match_wins :
    (∀ (agentTag : String) (reg : Registry) (pre post : List String)
        (a : String) (t : Tool),
      (∀ b ∈ pre, b = agentTag ∨ (registry_lookup reg b).isSome = false) →
      a ≠ agentTag → registry_lookup reg a = some t →
      find_matching_tool agentTag reg (pre ++ a :: post) = some (a, t)) ∧
    (∀ (agentTag : String) (reg : Registry) (labels : List String),
      (∀ b ∈ labels, b = agentTag ∨ (registry_lookup reg b).isSome = false) →
      find_matching_tool agentTag reg labels = none) ∧
    (∀ (agentTag : String) (reg : Registry) (task : TaskItem),
      find_matching_tool agentTag reg (task.labels.getD []) = none →
      process_task agentTag reg task = []) := by
  refine ⟨?_, ?_, ?_⟩
  · intro agentTag reg pre post a t hpre hne hfound
    induction pre with
    | nil =>
      simp only [List.nil_append, find_matching_tool, if_pos hne, hfound]
    | cons b bs ih =>
      have hb := hpre b (List.mem_cons_self b bs)
      have hbs : ∀ x ∈ bs, x = agentTag ∨ (registry_lookup reg x).isSome = false :=
        fun x hx => hpre x (List.mem_cons_of_mem b hx)
      rcases hb with hb | hb
      · subst hb
        simpa [find_matching_tool] using ih hbs
      · rcases hlook : registry_lookup reg b with _ | t'
        · by_cases hba : b = agentTag
          · subst hba
            simpa [find_matching_tool] using ih hbs
          · simp only [List.cons_append, find_matching_tool, if_pos hba, hlook]
            exact ih hbs
        · rw [hlook] at hb
          simp at hb
  · intro agentTag reg labels hall
    induction labels with
    | nil => rfl
    | cons b bs ih =>
      have hb := hall b (List.mem_cons_self b bs)
      have hbs : ∀ x ∈ bs, x = agentTag ∨ (registry_lookup reg x).isSome = false :=
        fun x hx => hall x (List.mem_cons_of_mem b hx)
      rcases hb with hb | hb
      · subst hb
        simpa [find_matching_tool] using ih hbs
      · rcases hlook : registry_lookup reg b with _ | t'
        · by_cases hba : b = agentTag
          · subst hba
            simpa [find_matching_tool] using ih hbs
          · simp only [find_matching_tool, if_pos hba, hlook]
            exact ih hbs
        · rw [hlook] at hb
          simp at hb
  · intro agentTag reg task hnone
    simp [process_task, hnone]

/-- A demonstration tool used to instantiate dispatch theorems on
concrete inputs. -/
def demo_tool : Tool := { execute := fun _ => Except.ok "done" }

/-- Witness for C2: with registry keys `buscar` and `resumir_doc`, the
first matching label in order (`buscar`) wins over the later one. -/
theorem c2_first_match_witness :
    find_matching_tool AGENT_TAG
      [("buscar", demo_tool), ("resumir_doc", demo_tool)]
      (["@arturito", "casa"] ++ "buscar" :: ["resumir_doc"]) =
      some ("buscar", demo_tool) :=
  c2_first_match_wins.1 AGENT_TAG
    [("buscar", demo_tool), ("resumir_doc", demo_tool)]
    ["@arturito", "casa"] ["resumir_doc"] "buscar" demo_tool
    (by decide) (by decide) rfl

/-- C4: an exception raised by a handler is caught at the item level —
the pass over `ts1 ++ t :: ts2` always decomposes into the independent
effects of each item, whatever `t`'s tool does — and a failing execution
yields `success = False` with a non-empty diagnostic comment embedding
the action tag and the underlying error text. -/
theorem c4_failure_isolated :
    (∀ (agentTag : String) (reg : Registry) (ts1 ts2 : List TaskItem)
        (t : TaskItem),
      process_tagged_tasks agentTag reg (Except.ok (ts1 ++ t :: ts2)) =
        ts1.flatMap (process_task agentTag reg) ++
          process_task agentTag reg t ++
          ts2.flatMap (process_task agentTag reg)) ∧
    (∀ (tool : Tool) (a : String) (d : TaskDetails) (e : String),
      tool.execute d = Except.error e →
      execute_tool tool a d = (error_comment a e, false) ∧
      error_comment a e =
        "Error: Fallo al ejecutar la acción '" ++ a ++
          "'.\nDetalles: " ++ e ∧
      error_comment a e ≠ "") := by
  constructor
  · intro agentTag reg ts1 ts2 t
    have hne : (ts1 ++ t :: ts2).isEmpty = false := by
      simp [List.isEmpty_iff]
    simp [process_tagged_tasks, hne, List.flatMap_append]
  · intro tool a d e hraise
    refine ⟨by simp [execute_tool, hraise], rfl, ?_⟩
    intro hempty
    have hdata := congrArg String.data hempty
    simp only [error_comment, String.data_append] at hdata
    simp at hdata

/-- A tool whose execution always raises, used to instantiate the
failure-isolation theorem. -/
def failing_tool : Tool := { execute := fun _ => Except.error "boom" }

/-- Witness for C4: a concrete raising tool is caught and produces the
diagnostic comment with `success = False`. -/
theorem c4_failure_isolated_witness :
    execute_tool failing_tool "buscar"
        { id := "t1", content := "c", description := "", labels := [] } =
      (error_comment "buscar" "boom", false) :=
  (c4_failure_isolated.2 failing_tool "buscar"
    { id := "t1", content := "c", description := "", labels := [] }
    "boom" rfl).1

theorem find_matching_tool_some {agentTag : String} {reg : Registry}
    {labels : List String} {a : String} {t : Tool}
    (h : find_matching_tool agentTag reg labels = some (a, t)) :
    a ∈ labels ∧ a ≠ agentTag ∧ registry_lookup reg a = some t := by
  induction labels with
  | nil => cases h
  | cons l ls ih =>
    by_cases hl : l = agentTag
    · simp only [find_matching_tool, hl, if_neg (not_not_intro rfl)] at h
      obtain ⟨h1, h2, h3⟩ := ih h
      exact ⟨List.mem_cons_of_mem l h1, h2, h3⟩
    · rcases hlook : registry_lookup reg l with _ | t'
      · simp only [find_matching_tool, if_pos hl, hlook] at h
        obtain ⟨h1, h2, h3⟩ := ih h
        exact ⟨List.mem_cons_of_mem l h1, h2, h3⟩
      · simp only [find_matching_tool, if_pos hl, hlook, Option.some.injEq,
          Prod.mk.injEq] at h
        obtain ⟨rfl, rfl⟩ := h
        exact ⟨List.mem_cons_self l ls, hl, hlook⟩

theorem action_tag_not_mem_new_labels {labels : List String} {a : String}
    (hne : a ≠ DONE_TAG) (success : Bool) :
    a ∉ new_labels_after AGENT_TAG (some a) labels success := by
  intro hx
  rcases success with _ | _
  · simp [new_labels_after] at hx
  · simp [new_labels_after] at hx
    exact hne hx

/-- C3: for a processed item (the action tag was matched from the labels
and, being a registry trigger tag of this repository — `buscar` or
`resumir_doc` — differs from the done marker), the tag-replace call is
skipped exactly when the new and original label lists are equal as
unordered sets; for such items both sides are false, so an update is
always issued, and the sorted-list comparison the code performs agrees
with the order-insensitive set comparison the specification words. -/
theorem c3_skip_iff_unordered_eq (reg : Registry) (labels : List String)
    (a : String) (t : Tool) (success : Bool) (taskId comment : String)
    (hfind : find_matching_tool AGENT_TAG reg labels = some (a, t))
    (hne : a ≠ DONE_TAG) :
    ((∀ ls, Effect.updateLabels taskId ls ∉
        update_task_after_processing AGENT_TAG taskId labels (some a)
          success comment) ↔
      (new_labels_after AGENT_TAG (some a) labels success).toFinset =
        labels.toFinset) := by
  obtain ⟨hmem, _, _⟩ := find_matching_tool_some hfind
  have hnotin := @action_tag_not_mem_new_labels labels a hne success
  have hsort : sortLabels (new_labels_after AGENT_TAG (some a) labels success) ≠
      sortLabels labels := by
    intro heq
    exact hnotin ((sortLabels_eq_perm heq).mem_iff.mpr hmem)
  refine iff_of_false ?_ ?_
  · intro hall
    refine hall (new_labels_after AGENT_TAG (some a) labels success) ?_
    simp only [update_task_after_processing, if_pos hsort]
    exact List.mem_append_right _ (List.mem_singleton.mpr rfl)
  · intro hset
    exact hnotin (List.mem_toFinset.mp (hset ▸ List.mem_toFinset.mpr hmem))

/-- Witness for C3: a concrete processed item (labels
`["@arturito", "buscar"]`, matched tag `buscar`) always triggers the
tag-replace call, and its label sets indeed differ. -/
theorem c3_skip_iff_unordered_eq_witness :
    ((∀ ls, Effect.updateLabels "t1" ls ∉
        update_task_after_processing AGENT_TAG "t1" ["@arturito", "buscar"]
          (some "buscar") true "ok") ↔
      (new_labels_after AGENT_TAG (some "buscar") ["@arturito", "buscar"]
          true).toFinset =
        (["@arturito", "buscar"] : List String).toFinset) :=
  c3_skip_iff_unordered_eq [("buscar", demo_tool)] ["@arturito", "buscar"]
    "buscar" demo_tool true "t1" "ok" rfl (by decide)

/-! Registry construction (`tool_loader.py` / `Agent._load_tools`).
An instantiation attempt for one concrete tool class either yields a
trigger tag and a tool instance, or raises (the `error` case carries the
logged exception text). -/

/-- The loader's accumulated state: the registry dict plus the warning
and error messages logged so far (warnings record the colliding trigger
tag of a duplicate registration, errors the instantiation failures). -/
structure LoaderState where
  registry : Registry
  warnings : List String
  errors : List String

/-- Dict insertion with Python semantics: replace the binding in place
when the key exists, append it otherwise. -/
def dict_insert : Registry → String → Tool → Registry
  | [], tag, tool => [(tag, tool)]
  | (k, v) :: rest, tag, tool =>
    if k = tag then (tag, tool) :: rest
    else (k, v) :: dict_insert rest tag tool

/-- `ToolLoader._instantiate_and_register_tool` for one instantiation
attempt: an exception is logged and skipped; otherwise a duplicate
trigger tag logs a warning and the instance is stored (overwriting any
earlier binding). -/
def instantiate_and_register (st : LoaderState)
    (attempt : Except String (String × Tool)) : LoaderState :=
  match attempt with
  | .error e => { st with errors := st.errors ++ [e] }
  | .ok (tag, tool) =>
    let warnings :=
      if (registry_lookup st.registry tag).isSome then st.warnings ++ [tag]
      else st.warnings
    { st with registry := dict_insert st.registry tag tool,
              warnings := warnings }

/-- `ToolLoader.load_tools`: fold the instantiation attempts, in
discovery order, into the registry. -/
def load_tools (attempts : List (Except String (String × Tool))) :
    LoaderState :=
  attempts.foldl instantiate_and_register
    { registry := [], warnings := [], errors := [] }

/-- The handler the specification says a tag should map to after
loading: the tool of the last successful registration carrying that
tag.  Stated from the spec, to be compared with the loader's registry. -/
def last_registered (attempts : List (Except String (String × Tool)))
    (tag : String) : Option Tool :=
  attempts.foldl
    (fun acc attempt =>
      match attempt with
      | .ok (t, tool) => if t = tag then some tool else acc
      | .error _ => acc)
    none

theorem registry_lookup_dict_insert (reg : Registry) (tag k : String)
    (tool : Tool) :
    registry_lookup (dict_insert reg tag tool) k =
      if tag = k then some tool else registry_lookup reg k := by
  induction reg with
  | nil => simp [dict_insert, registry_lookup]
  | cons p rest ih =>
    obtain ⟨k', v'⟩ := p
    by_cases h : k' = tag
    · subst h
      by_cases hk : k' = k <;>
        simp [dict_insert, registry_lookup, hk]
    · by_cases hk : k' = k
      · subst hk
        have : ¬tag = k' := fun hh => h hh.symm
        simp [dict_insert, registry_lookup, h, this]
      · simp [dict_insert, registry_lookup, h, hk, ih]

theorem load_tools_lookup_aux (attempts : List (Except String (String × Tool)))
    (st : LoaderState) (tag : String) :
    registry_lookup (attempts.foldl instantiate_and_register st).registry tag =
      attempts.foldl
        (fun acc attempt =>
          match attempt with
          | .ok (t, tool) => if t = tag then some tool else acc
          | .error _ => acc)
        (registry_lookup st.registry tag) := by
  induction attempts generalizing st with
  | nil => rfl
  | cons attempt rest ih =>
    rcases attempt with e | p
    · simpa [instantiate_and_register] using ih _
    · obtain ⟨t, tool⟩ := p
      rw [List.foldl_cons, List.foldl_cons, ih]
      simp [instantiate_and_register, registry_lookup_dict_insert]

theorem loader_warnings_monotone
    (attempts : List (Except String (String × Tool))) (st : LoaderState)
    (w : String) (h : w ∈ st.warnings) :
    w ∈ (attempts.foldl instantiate_and_register st).warnings := by
  induction attempts generalizing st with
  | nil => exact h
  | cons attempt rest ih =>
    rcases attempt with e | p
    · exact ih _ h
    · obtain ⟨t, tool⟩ := p
      refine ih _ ?_
      by_cases hdup : (registry_lookup st.registry t).isSome <;>
        simp [instantiate_and_register, hdup, h]

theorem loader_key_monotone
    (attempts : List (Except String (String × Tool))) (st : LoaderState)
    (tag : String) (h : (registry_lookup st.registry tag).isSome = true) :
    ((attempts.foldl instantiate_and_register st).registry
        |> (registry_lookup · tag)).isSome = true := by
  induction attempts generalizing st with
  | nil => exact h
  | cons attempt rest ih =>
    rcases attempt with e | p
    · exact ih _ h
    · obtain ⟨t, tool⟩ := p
      refine ih _ ?_
      simp only [instantiate_and_register, registry_lookup_dict_insert]
      by_cases ht : t = tag <;> simp [ht, h]

theorem dict_insert_keys_mem (reg : Registry) (tag k : String) (tool : Tool) :
    k ∈ (dict_insert reg tag tool).map Prod.fst ↔
      k ∈ reg.map Prod.fst ∨ k = tag := by
  induction reg with
  | nil => simp [dict_insert]
  | cons p rest ih =>
    obtain ⟨k', v'⟩ := p
    by_cases h : k' = tag
    · subst h
      simp [dict_insert]
      tauto
    · simp [dict_insert, h, ih]
      tauto

theorem dict_insert_keys_nodup (reg : Registry) (tag : String) (tool : Tool)
    (h : (reg.map Prod.fst).Nodup) :
    ((dict_insert reg tag tool).map Prod.fst).Nodup := by
  induction reg with
  | nil => simp [dict_insert]
  | cons p rest ih =>
    obtain ⟨k', v'⟩ := p
    simp only [List.map_cons, List.nodup_cons] at h
    by_cases hk : k' = tag
    · subst hk
      simpa [dict_insert] using h
    · simp only [dict_insert, if_neg hk, List.map_cons, List.nodup_cons]
      refine ⟨?_, ih h.2⟩
      rw [dict_insert_keys_mem]
      rintro (hmem | rfl)
      · exact h.1 hmem
      · exact hk rfl

theorem loader_errors_monotone
    (attempts : List (Except String (String × Tool))) (st : LoaderState)
    (e : String) (h : e ∈ st.errors) :
    e ∈ (attempts.foldl instantiate_and_register st).errors := by
  induction attempts generalizing st with
  | nil => exact h
  | cons attempt rest ih =>
    rcases attempt with e' | p
    · exact ih _ (by simp [instantiate_and_register, h])
    · obtain ⟨t, tool⟩ := p
      exact ih _ (by simp [instantiate_and_register, h])

theorem loader_state_errors_irrelevant
    (attempts : List (Except String (String × Tool))) (s₁ s₂ : LoaderState)
    (hreg : s₁.registry = s₂.registry) (hwarn : s₁.warnings = s₂.warnings) :
    (attempts.foldl instantiate_and_register s₁).registry =
        (attempts.foldl instantiate_and_register s₂).registry ∧
      (attempts.foldl instantiate_and_register s₁).warnings =
        (attempts.foldl instantiate_and_register s₂).warnings := by
  induction attempts generalizing s₁ s₂ with
  | nil => exact ⟨hreg, hwarn⟩
  | cons attempt rest ih =>
    rcases attempt with e | p
    · exact ih _ _ (by simp [instantiate_and_register, hreg])
        (by simp [instantiate_and_register, hwarn])
    · obtain ⟨t, tool⟩ := p
      exact ih _ _ (by simp [instantiate_and_register, hreg])
        (by simp [instantiate_and_register, hreg, hwarn])

/-- C6: after loading, looking a trigger tag up in the registry yields
exactly the tool of the last successful registration with that tag
(last-registration-wins), the registry's keys are unique, and whenever
two successful registrations carry the same trigger tag the collision is
logged as a warning naming that tag. -/
theorem c6_duplicate_tag_last_wins :
    (∀ (attempts : List (Except String (String × Tool))) (tag : String),
      registry_lookup (load_tools attempts).registry tag =
        last_registered attempts tag) ∧
    (∀ attempts : List (Except String (String × Tool)),
      ((load_tools attempts).registry.map Prod.fst).Nodup) ∧
    (∀ (l₁ l₂ l₃ : List (Except String (String × Tool))) (tag : String)
        (t₁ t₂ : Tool),
      tag ∈ (load_tools
        (l₁ ++ Except.ok (tag, t₁) :: (l₂ ++ Except.ok (tag, t₂) :: l₃))).warnings) := by
  refine ⟨?_, ?_, ?_⟩
  · intro attempts tag
    simpa [registry_lookup] using
      load_tools_lookup_aux attempts
        { registry := [], warnings := [], errors := [] } tag
  · intro attempts
    suffices h : ∀ (st : LoaderState), (st.registry.map Prod.fst).Nodup →
        (((attempts.foldl instantiate_and_register st).registry).map
          Prod.fst).Nodup by
      exact h _ (by simp)
    induction attempts with
    | nil => exact fun st h => h
    | cons attempt rest ih =>
      intro st hst
      rcases attempt with e | p
      · exact ih _ (by simpa [instantiate_and_register] using hst)
      · obtain ⟨t, tool⟩ := p
        exact ih _ (by simpa [instantiate_and_register] using
          dict_insert_keys_nodup st.registry t tool hst)
  · intro l₁ l₂ l₃ tag t₁ t₂
    unfold load_tools
    rw [List.foldl_append, List.foldl_cons, List.foldl_append, List.foldl_cons]
    set st₁ := l₁.foldl instantiate_and_register
      { registry := [], warnings := [], errors := [] } with hst₁
    set st₂ := l₂.foldl instantiate_and_register
      (instantiate_and_register st₁ (Except.ok (tag, t₁))) with hst₂
    have hkey : (registry_lookup st₂.registry tag).isSome = true := by
      refine loader_key_monotone l₂ _ tag ?_
      simp [instantiate_and_register, registry_lookup_dict_insert]
    refine loader_warnings_monotone l₃ _ tag ?_
    simp [instantiate_and_register, hkey]

/-- Witness for C6: two registrations of trigger tag `buscar` leave the
last tool in the registry and the lookup agrees with the spec-side
`last_registered`. -/
theorem c6_duplicate_tag_last_wins_witness :
    registry_lookup
        (load_tools [Except.ok ("buscar", failing_tool),
          Except.ok ("buscar", demo_tool)]).registry "buscar" =
      last_registered [Except.ok ("buscar", failing_tool),
        Except.ok ("buscar", demo_tool)] "buscar" :=
  c6_duplicate_tag_last_wins.1
    [Except.ok ("buscar", failing_tool), Except.ok ("buscar", demo_tool)]
    "buscar"

/-- C8: an instantiation attempt that raises is skipped — it changes
neither the registry nor the collision warnings built from the remaining
attempts, and its exception text is logged — and an empty registry is
still usable: no label ever matches, so every item is skipped without
effects. -/
theorem c8_failed_instantiation_skipped :
    (∀ (l₁ l₂ : List (Except String (String × Tool))) (e : String),
      (load_tools (l₁ ++ Except.error e :: l₂)).registry =
          (load_tools (l₁ ++ l₂)).registry ∧
        (load_tools (l₁ ++ Except.error e :: l₂)).warnings =
          (load_tools (l₁ ++ l₂)).warnings ∧
        e ∈ (load_tools (l₁ ++ Except.error e :: l₂)).errors) ∧
    (∀ (agentTag : String) (labels : List String),
      find_matching_tool agentTag [] labels = none) ∧
    (∀ (agentTag : String) (task : TaskItem),
      process_task agentTag [] task = []) := by
  refine ⟨?_, ?_, ?_⟩
  · intro l₁ l₂ e
    unfold load_tools
    rw [List.foldl_append, List.foldl_cons, List.foldl_append]
    set st₁ := l₁.foldl instantiate_and_register
      { registry := [], warnings := [], errors := [] } with hst₁
    refine ⟨(loader_state_errors_irrelevant l₂ _ _ (by simp
        [instantiate_and_register]) (by simp [instantiate_and_register])).1,
      (loader_state_errors_irrelevant l₂ _ _ (by simp
        [instantiate_and_register]) (by simp [instantiate_and_register])).2,
      ?_⟩
    exact loader_errors_monotone l₂ _ e (by simp [instantiate_and_register])
  · intro agentTag labels
    induction labels with
    | nil => rfl
    | cons l ls ih =>
      by_cases h : l = agentTag
      · simp [find_matching_tool, h, ih]
      · simp [find_matching_tool, h, registry_lookup, ih]
  · intro agentTag task
    have h : find_matching_tool agentTag [] (task.labels.getD []) = none := by
      induction task.labels.getD [] with
      | nil => rfl
      | cons l ls ih =>
        by_cases hp : l = agentTag
        · simp [find_matching_tool, hp, ih]
        · simp [find_matching_tool, hp, registry_lookup, ih]
    simp [process_task, h]

/-- Witness for C8: a concrete raising instantiation between two good
ones leaves the registry of the other two intact. -/
theorem c8_failed_instantiation_witness :
    (load_tools [Except.ok ("buscar", demo_tool), Except.error "no creds",
        Except.ok ("resumir_doc", demo_tool)]).registry =
      (load_tools [Except.ok ("buscar", demo_tool),
        Except.ok ("resumir_doc", demo_tool)]).registry :=
  (c8_failed_instantiation_skipped.1 [Except.ok ("buscar", demo_tool)]
    [Except.ok ("resumir_doc", demo_tool)] "no creds").1

/-! Generation service (`services/gemini_service.py`).  One API attempt
is classified by the branch of `generate_content` it takes: a usable
response, a blocked/empty response, one of the three transient error
classes (`ResourceExhausted`, `InternalServerError`,
`DeadlineExceeded`), a `NotFound`, another `GoogleAPIError`, or an
unexpected exception.  The environment is a map from attempt index to
outcome; the embedding returns the result together with the sleeps
performed and the number of attempts made. -/

inductive GenOutcome where
  | success (text : String)
  | blockedOrEmpty
  | transientError
  | notFound
  | apiError
  | unexpectedError
deriving DecidableEq

/-- Result of one `generate_content` call: the returned value, the
backoff sleeps performed (in seconds, in order), and how many API
attempts were made. -/
structure GenResult where
  result : Option String
  sleeps : List Nat
  attempts : Nat
deriving DecidableEq

/-- `GeminiService.MAX_RETRIES`. -/
def MAX_RETRIES : Nat := 3

/-- `GeminiService.INITIAL_BACKOFF_SECONDS`. -/
def INITIAL_BACKOFF_SECONDS : Nat := 2

/-- `GeminiService.BACKOFF_FACTOR`. -/
def BACKOFF_FACTOR : Nat := 2

/-- `GeminiService.DEFAULT_MODEL`. -/
def DEFAULT_MODEL : String := "models/gemini-1.5-flash"

/-- The `while retries < MAX_RETRIES` loop of `generate_content`,
recursing on the number of loop iterations still allowed
(`MAX_RETRIES - retries`).  A transient error increments `retries`,
and only sleeps (recording the backoff, then doubling it) when another
iteration is allowed; every other outcome returns at once. -/
def generate_attempts (outcomes : Nat → GenOutcome) :
    Nat → Nat → Nat → GenResult
  | 0, _, _ => { result := none, sleeps := [], attempts := 0 }
  | remaining + 1, idx, backoff =>
    match outcomes idx with
    | .success t => { result := some t, sleeps := [], attempts := 1 }
    | .blockedOrEmpty => { result := none, sleeps := [], attempts := 1 }
    | .transientError =>
      match remaining with
      | 0 => { result := none, sleeps := [], attempts := 1 }
      | rem + 1 =>
        let r := generate_attempts outcomes (rem + 1) (idx + 1)
          (backoff * BACKOFF_FACTOR)
        { result := r.result, sleeps := backoff :: r.sleeps,
          attempts := r.attempts + 1 }
    | .notFound => { result := none, sleeps := [], attempts := 1 }
    | .apiError => { result := none, sleeps := [], attempts := 1 }
    | .unexpectedError => { result := none, sleeps := [], attempts := 1 }

/-- Python's `str.startswith` on character lists. -/
def starts_with_chars : List Char → List Char → Bool
  | _, [] => true
  | [], _ :: _ => false
  | c :: cs, d :: ds => if c = d then starts_with_chars cs ds else false

/-- Python's `str.startswith` used by the model-name format check. -/
def str_starts_with (s pat : String) : Bool :=
  starts_with_chars s.data pat.data

/-- `GeminiService.generate_content`: reject an invalid model name
without any attempt, otherwise run the retry loop from `retries = 0`
with the initial backoff. -/
def generate_content (modelName : String) (outcomes : Nat → GenOutcome) :
    GenResult :=
  if !(str_starts_with modelName "models/" ||
      str_starts_with modelName "tunedModels/")
  then { result := none, sleeps := [], attempts := 0 }
  else generate_attempts outcomes MAX_RETRIES 0 INITIAL_BACKOFF_SECONDS

/-- C9: a generation call makes at most 3 attempts; the sleeps between
attempts start at 2 seconds and double each retry (so they form one of
`[]`, `[2]`, `[2, 4]`); when every attempt hits a transient server error
the call sleeps 2 then 4 seconds, makes exactly 3 attempts and returns a
failure; and a blocked response returns a failure after its single
attempt, with no retry and no sleep. -/
theorem c9_bounded_retry_backoff (outcomes : Nat → GenOutcome) :
    (generate_content DEFAULT_MODEL outcomes).attempts ≤ 3 ∧
    ((generate_content DEFAULT_MODEL outcomes).sleeps = [] ∨
      (generate_content DEFAULT_MODEL outcomes).sleeps = [2] ∨
      (generate_content DEFAULT_MODEL outcomes).sleeps = [2, 4]) ∧
    ((∀ i, outcomes i = GenOutcome.transientError) →
      generate_content DEFAULT_MODEL outcomes =
        { result := none, sleeps := [2, 4], attempts := 3 }) ∧
    (outcomes 0 = GenOutcome.blockedOrEmpty →
      generate_content DEFAULT_MODEL outcomes =
        { result := none, sleeps := [], attempts := 1 }) := by
  have hmodel : (!(str_starts_with DEFAULT_MODEL "models/" ||
      str_starts_with DEFAULT_MODEL "tunedModels/")) = false := by decide
  have hgen : generate_content DEFAULT_MODEL outcomes =
      generate_attempts outcomes 3 0 2 := by
    simp [generate_content, hmodel, MAX_RETRIES, INITIAL_BACKOFF_SECONDS]
  refine ⟨?_, ?_, ?_, ?_⟩
  · rw [hgen]
    rcases h0 : outcomes 0 <;> simp [generate_attempts, h0, BACKOFF_FACTOR]
    rcases h1 : outcomes 1 <;> simp [generate_attempts, h1]
    rcases h2 : outcomes 2 <;> simp [generate_attempts, h2]
  · rw [hgen]
    rcases h0 : outcomes 0 <;> simp [generate_attempts, h0, BACKOFF_FACTOR]
    rcases h1 : outcomes 1 <;> simp [generate_attempts, h1]
    rcases h2 : outcomes 2 <;> simp [generate_attempts, h2]
  · intro hall
    rw [hgen]
    simp [generate_attempts, hall 0, hall 1, hall 2, BACKOFF_FACTOR]
  · intro h0
    rw [hgen]
    simp [generate_attempts, h0]

/-- Witness for C9: all-transient outcomes give exactly three attempts,
sleeps of 2 then 4 seconds, and a failure result. -/
theorem c9_bounded_retry_backoff_witness :
    generate_content DEFAULT_MODEL (fun _ => GenOutcome.transientError) =
      { result := none, sleeps := [2, 4], attempts := 3 } :=
  (c9_bounded_retry_backoff (fun _ => GenOutcome.transientError)).2.2.1
    (fun _ => rfl)

/-! Search tool (`tools/base_tool.py`, `tools/search_tool.py`).  The
constructor chain and the key-check branch of `execute` are embedded;
everything past the key check is network work, abstracted as an explicit
`networkBody` parameter that the disabled branch never reaches. -/

/-- `BaseTool.__init__`: raises `NotImplementedError` when the trigger
tag is blank, otherwise succeeds. -/
def base_tool_init (triggerTag : String) : Except String Unit :=
  if triggerTag = ""
  then Except.error "must define a TRIGGER_TAG class attribute"
  else Except.ok ()

/-- `SearchTool.TRIGGER_TAG`. -/
def SEARCH_TRIGGER_TAG : String := "buscar"

/-- The state a constructed `SearchTool` holds: the Serper API key read
from the capability bag, possibly absent. -/
structure SearchToolState where
  serperApiKey : Option String
deriving DecidableEq

/-- `SearchTool.__init__`: run the base constructor, then store the key;
a missing key only logs a warning — construction still succeeds. -/
def search_tool_init (configKey : Option String) :
    Except String SearchToolState :=
  match base_tool_init SEARCH_TRIGGER_TAG with
  | .error e => Except.error e
  | .ok _ => Except.ok { serperApiKey := configKey }

/-- The string `SearchTool.execute` returns from its first branch when
the key is missing. -/
def SEARCH_DISABLED_MESSAGE : String :=
  "Error: SearchTool is disabled because SERPER_API_KEY is not configured."

/-- `SearchTool.execute`: with no key, return the disabled message as an
ordinary (successful) result; with a key, continue into the search and
summarization body. -/
def search_tool_execute (networkBody : TaskDetails → Except String String)
    (st : SearchToolState) (d : TaskDetails) : Except String String :=
  match st.serperApiKey with
  | none => Except.ok SEARCH_DISABLED_MESSAGE
  | some _ => networkBody d

/-- A `SearchTool` instance wrapped as a registry entry; the network
body is irrelevant for a key-less instance and left abstractly failing. -/
def search_tool_as_tool (key : Option String) : Tool :=
  { execute := search_tool_execute
      (fun _ => Except.error "network body not modelled")
      { serperApiKey := key } }

/-- C5 counterexample: with the search API key missing, `SearchTool`'s
construction succeeds (no exception), its registration under `buscar`
succeeds, and an item tagged `buscar` IS dispatched to it — the
execution even counts as a success, posting the disabled-tool comment
and the done marker — refuting the claim that a missing credential must
fail registration so that no item is ever dispatched. -/
theorem c5_missing_key_registers_anyway :
    search_tool_init none = Except.ok { serperApiKey := none } ∧
    (registry_lookup
        (load_tools [Except.ok (SEARCH_TRIGGER_TAG, search_tool_as_tool none)]).registry
        "buscar").isSome = true ∧
    process_task AGENT_TAG
        (load_tools [Except.ok (SEARCH_TRIGGER_TAG, search_tool_as_tool none)]).registry
        { id := "t1", content := "clima en Lima", description := "",
          labels := some ["@arturito", "buscar"] } =
      [Effect.addComment "t1" SEARCH_DISABLED_MESSAGE,
        Effect.updateLabels "t1" [DONE_TAG]] := by
  refine ⟨rfl, rfl, ?_⟩
  decide

/-- C5 amended: a missing search API key does not fail `SearchTool`'s
construction or registration — construction succeeds with a warning and
`execute` then returns the fixed disabled-tool message as a successful
result; fail-fast at construction holds only for a blank trigger tag. -/
theorem c5_amended_disabled_tool (key : Option String) :
    search_tool_init key = Except.ok { serperApiKey := key } ∧
    (∀ (networkBody : TaskDetails → Except String String) (d : TaskDetails),
      search_tool_execute networkBody { serperApiKey := none } d =
        Except.ok SEARCH_DISABLED_MESSAGE) ∧
    base_tool_init "" =
      Except.error "must define a TRIGGER_TAG class attribute" :=
  ⟨rfl, fun _ _ => rfl, rfl⟩

/-! Task service (`services/todoist_service.py`).  The underlying
`todoist_api_python` call either returns a task list or raises; the
wrapper's `try/except` is the match below. -/

/-- `TodoistService.get_tasks_by_filter`: return the API's tasks, or the
empty list when the API call raises — the wrapper itself never raises. -/
def get_tasks_by_filter (apiResult : Except String (List TaskItem)) :
    Except String (List TaskItem) :=
  match apiResult with
  | .ok tasks => Except.ok tasks
  | .error _ => Except.ok []

/-- C10: `get_tasks_by_filter` never propagates an exception; a raising
API call yields exactly what a fetch of zero tagged items yields, so the
dispatch loop's fetch-failure branch is unreachable through this service
and a failed fetch ends the pass as the empty-fetch no-op. -/
theorem c10_fetch_swallows_errors :
    (∀ (api : Except String (List TaskItem)) (e : String),
      get_tasks_by_filter api ≠ Except.error e) ∧
    (∀ e : String,
      get_tasks_by_filter (Except.error e) =
        get_tasks_by_filter (Except.ok [])) ∧
    (∀ (agentTag : String) (reg : Registry) (e : String),
      process_tagged_tasks agentTag reg
        (get_tasks_by_filter (Except.error e)) = []) := by
  refine ⟨?_, fun _ => rfl, fun _ _ _ => rfl⟩
  intro api e h
  cases api <;> simp [get_tasks_by_filter] at h

/-- Witness for C10: a concrete raising API call leaves the pass with no
effects, exactly like an empty fetch. -/
theorem c10_fetch_swallows_errors_witness :
    process_tagged_tasks AGENT_TAG []
      (get_tasks_by_filter (Except.error "HTTP 500")) = [] :=
  c10_fetch_swallows_errors.2.2 AGENT_TAG [] "HTTP 500"

end Arturito
